import Mathlib

/-!
Shallow embedding of the Boggle grid generator of
`src/app/games/boggle.py` and the game-start endpoint of
`src/app/main.py`, together with proofs of the specification's
properties about them.

Randomness (`random.shuffle`, `random.choice`) is modelled by an
explicit `Rand` record supplying the shuffle permutation and the index
streams consumed by the two `choice` call sites; theorems quantify over
all such records (restricted, where needed, by the hypothesis that the
shuffle output is a permutation of its input, which is all `random.shuffle`
guarantees).
-/

namespace Boggle

/-- `LETTER_PLACEHOLDER = 1` from `boggle.py`. -/
def LETTER_PLACEHOLDER : Int := 1

/-- `BOUNDARY_START = 66` from `boggle.py`. -/
def BOUNDARY_START : Int := 66

/-- `BOUNDARY_END = 63` from `boggle.py`. -/
def BOUNDARY_END : Int := 63

/-- `EMPTY_CELL = 0` from `boggle.py`. -/
def EMPTY_CELL : Int := 0

/-- `ASCII_LOWERCASE_OFFSET = 96` from `boggle.py`. -/
def ASCII_LOWERCASE_OFFSET : Int := 96

/-- `BOGGLE_DICE_4x4`: sixteen dice, six single-letter faces each. -/
def BOGGLE_DICE_4x4 : List (List Char) := [
    ['A','E','A','N','E','G'], ['A','H','S','P','C','O'], ['A','B','B','J','O','O'],
    ['A','F','F','K','P','S'], ['A','O','O','T','T','W'], ['C','I','M','O','T','U'],
    ['D','E','I','L','R','X'], ['D','E','L','R','V','Y'], ['D','I','S','T','T','Y'],
    ['E','E','G','H','N','W'], ['E','E','I','N','S','U'], ['E','H','R','T','V','W'],
    ['E','I','O','S','S','T'], ['E','L','R','T','T','Y'], ['H','I','M','N','U','T'],
    ['H','L','N','N','R','Z']
]

/-- `BOGGLE_DICE_5x5`: twenty-five dice, six single-letter faces each. -/
def BOGGLE_DICE_5x5 : List (List Char) := [
    ['Q','B','Z','J','X','K'], ['H','H','L','R','D','C'], ['T','E','L','P','C','I'],
    ['T','T','O','T','E','M'], ['A','E','A','E','E','E'], ['T','O','U','O','T','C'],
    ['N','H','D','T','H','C'], ['S','S','N','S','E','U'], ['S','C','T','I','E','P'],
    ['Y','I','F','P','S','R'], ['O','V','W','R','G','R'], ['L','H','N','R','O','D'],
    ['R','I','Y','P','R','H'], ['E','A','N','D','N','N'], ['E','E','E','E','M','A'],
    ['A','A','A','F','S','R'], ['A','F','A','I','S','R'], ['D','O','R','D','L','N'],
    ['M','N','N','E','A','G'], ['I','T','I','T','I','E'], ['A','U','M','E','E','G'],
    ['Y','I','F','A','S','R'], ['C','C','W','N','S','T'], ['U','O','T','O','W','N'],
    ['E','T','I','L','I','C']
]

/-- `BEGIN_ROW_4x4` template row. -/
def BEGIN_ROW_4x4 : List Int := [2,0,0,0,0,0,0,0,66,66,66,66,66,66,0,0,0,0,29,48,0,27]

/-- `MID_ROWS_TEMPLATE_4x4` template rows (placeholder sentinel is `1`). -/
def MID_ROWS_TEMPLATE_4x4 : List (List Int) := [
    [15,20,0,0,0,0,0,0,66, LETTER_PLACEHOLDER, LETTER_PLACEHOLDER, LETTER_PLACEHOLDER, LETTER_PLACEHOLDER, 66,0,0,0,0,30,48,0,27],
    [7,9,0,0,0,0,0,0,66, LETTER_PLACEHOLDER, LETTER_PLACEHOLDER, LETTER_PLACEHOLDER, LETTER_PLACEHOLDER, 66,0,0,0,0,31,48,0,28],
    [7,13,0,0,0,0,0,0,66, LETTER_PLACEHOLDER, LETTER_PLACEHOLDER, LETTER_PLACEHOLDER, LETTER_PLACEHOLDER, 66,0,0,0,0,32,48,0,29],
    [12,5,0,0,0,0,0,0,66, LETTER_PLACEHOLDER, LETTER_PLACEHOLDER, LETTER_PLACEHOLDER, LETTER_PLACEHOLDER, 66,0,0,0,0,33,48,0,31]
]

/-- `END_ROW_4x4` template row. -/
def END_ROW_4x4 : List Int := [5,0,0,0,0,0,0,0,66,66,66,66,66,66,0,0,0,0,34,48,27,27]

/-- `MID_ROWS_TEMPLATE_5x5` template rows. -/
def MID_ROWS_TEMPLATE_5x5 : List (List Int) := [
    [2,0,0,0,0,0,0,66, LETTER_PLACEHOLDER, LETTER_PLACEHOLDER, LETTER_PLACEHOLDER, LETTER_PLACEHOLDER, LETTER_PLACEHOLDER, 66,0,0,0,0,29,48,0,27],
    [15,20,0,0,0,0,0,66, LETTER_PLACEHOLDER, LETTER_PLACEHOLDER, LETTER_PLACEHOLDER, LETTER_PLACEHOLDER, LETTER_PLACEHOLDER, 66,0,0,0,0,30,48,0,27],
    [7,9,0,0,0,0,0,66, LETTER_PLACEHOLDER, LETTER_PLACEHOLDER, LETTER_PLACEHOLDER, LETTER_PLACEHOLDER, LETTER_PLACEHOLDER, 66,0,0,0,0,31,48,0,28],
    [7,13,0,0,0,0,0,66, LETTER_PLACEHOLDER, LETTER_PLACEHOLDER, LETTER_PLACEHOLDER, LETTER_PLACEHOLDER, LETTER_PLACEHOLDER, 66,0,0,0,0,32,48,0,29],
    [12,5,0,0,0,0,0,66, LETTER_PLACEHOLDER, LETTER_PLACEHOLDER, LETTER_PLACEHOLDER, LETTER_PLACEHOLDER, LETTER_PLACEHOLDER, 66,0,0,0,0,33,48,0,31]
]

/-- `END_ROW_5x5` template row. -/
def END_ROW_5x5 : List Int := [5,0,0,0,0,0,0,66,66,66,66,66,66,66,0,0,0,0,34,48,27,27]

/-- One entry of `BOGGLE_CONFIG` (the per-size configuration value). -/
structure SizeConfig where
  dice : List (List Char)
  begin_row : Option (List Int)
  mid_rows : List (List Int)
  end_row : List Int
deriving Repr, DecidableEq

/-- `BOGGLE_CONFIG`, the dictionary keyed by board size; `none` models a
missing key (so `size not in BOGGLE_CONFIG` is `BOGGLE_CONFIG size = none`). -/
def BOGGLE_CONFIG (size : Int) : Option SizeConfig :=
  if size = 4 then
    some ⟨BOGGLE_DICE_4x4, some BEGIN_ROW_4x4, MID_ROWS_TEMPLATE_4x4, END_ROW_4x4⟩
  else if size = 5 then
    some ⟨BOGGLE_DICE_5x5, none, MID_ROWS_TEMPLATE_5x5, END_ROW_5x5⟩
  else none

/-- The two exception kinds `generate_boggle_grids` can raise:
`ValueError` for an unsupported size, `RuntimeError` for the
placeholder/letter mismatch. -/
inductive BoggleError where
  | valueErrorUnsupportedSize : Int → BoggleError
  | runtimeErrorMismatch : BoggleError
deriving Repr, DecidableEq

/-- Model of the random choices a single call consumes: the permutation
applied by `random.shuffle`, the face index consumed by `choice(die)`
for the die at each position, and the pool index consumed by
`choice(available_numbers)` at each placement step. -/
structure Rand where
  shuffle : {α : Type} → List α → List α
  facePick : Nat → Nat
  placePick : Nat → Nat

/-- `random.choice(l)` for nonempty `l`: an arbitrary element of `l`,
selected here by an index stream value reduced modulo the length. -/
def pyChoice [Inhabited α] (l : List α) (k : Nat) : α :=
  l.getD (k % l.length) default

/-- `ord(letter.lower()) - ASCII_LOWERCASE_OFFSET`: the 1-based alphabet
code of a face letter. -/
def letterCode (c : Char) : Int :=
  (c.toLower.toNat : Int) - ASCII_LOWERCASE_OFFSET

/-- `[choice(die) for die in shuffled_dice]`, with the face chosen for
the die at position `i` driven by `r.facePick i`. -/
def rollLettersFrom (r : Rand) : Nat → List (List Char) → List Char
  | _, [] => []
  | i, die :: rest => pyChoice die (r.facePick i) :: rollLettersFrom r (i + 1) rest

/-- `letters = [choice(die) for die in shuffled_dice]`. -/
def rollLetters (r : Rand) (shuffled_dice : List (List Char)) : List Char :=
  rollLettersFrom r 0 shuffled_dice

/-- `letter_numbers = [ord(letter.lower()) - ASCII_LOWERCASE_OFFSET for letter in letters]`,
computed from the shuffled copy of the configured dice. -/
def rolled_numbers (r : Rand) (dice : List (List Char)) : List Int :=
  (rollLetters r (r.shuffle dice)).map letterCode

/-- The inner loop body applied along one row of `populated_mid_rows`:
each `LETTER_PLACEHOLDER` cell is replaced by
`choice(available_numbers)`, which is then removed (first occurrence,
as `list.remove` does) from the pool; an empty pool at a placeholder
raises `RuntimeError`.  Returns the filled row, the remaining pool and
the next placement-step counter. -/
def fillRow (r : Rand) :
    List Int → List Int → Nat → Except BoggleError (List Int × List Int × Nat)
  | [], available, step => .ok ([], available, step)
  | cell :: rest, available, step =>
    if cell = LETTER_PLACEHOLDER then
      match available with
      | [] => .error .runtimeErrorMismatch
      | a :: as =>
        let chosen := pyChoice (a :: as) (r.placePick step)
        match fillRow r rest ((a :: as).erase chosen) (step + 1) with
        | .error e => .error e
        | .ok (rest2, available2, step2) => .ok (chosen :: rest2, available2, step2)
    else
      match fillRow r rest available step with
      | .error e => .error e
      | .ok (rest2, available2, step2) => .ok (cell :: rest2, available2, step2)

/-- The two nested `for` loops over `populated_mid_rows`. -/
def fillRows (r : Rand) :
    List (List Int) → List Int → Nat →
    Except BoggleError (List (List Int) × List Int × Nat)
  | [], available, step => .ok ([], available, step)
  | row :: rest, available, step =>
    match fillRow r row available step with
    | .error e => .error e
    | .ok (row2, available2, step2) =>
      match fillRows r rest available2 step2 with
      | .error e => .error e
      | .ok (rest2, available3, step3) => .ok (row2 :: rest2, available3, step3)

/-- `if begin_row_template:` — Python truthiness of the optional row. -/
def beginRowPrefix : Option (List Int) → List (List Int)
  | none => []
  | some b => if b.isEmpty then [] else [b]

/-- The boundary transform applied cell-wise when building `end_grid`:
every `BOUNDARY_START` becomes `BOUNDARY_END`, all else is unchanged. -/
def boundaryCell (c : Int) : Int :=
  if c = BOUNDARY_START then BOUNDARY_END else c

/-- `generate_boggle_grids(size)` as a function of the explicit random
choices `r`: validates the size, shuffles a copy of the dice, rolls one
letter per die, converts to 1..26 codes, fills the mid-row template's
placeholder cells from the pool, assembles
`begin row? ++ mid rows ++ end row`, and derives the end grid by the
boundary transform. -/
def generate_boggle_grids (r : Rand) (size : Int) :
    Except BoggleError (List (List Int) × List (List Int)) :=
  match BOGGLE_CONFIG size with
  | none => .error (.valueErrorUnsupportedSize size)
  | some config =>
    let available_numbers := rolled_numbers r config.dice
    match fillRows r config.mid_rows available_numbers 0 with
    | .error e => .error e
    | .ok (populated_mid_rows, _, _) =>
      let start_grid :=
        beginRowPrefix config.begin_row ++ populated_mid_rows ++ [config.end_row]
      let end_grid := start_grid.map (fun row => row.map boundaryCell)
      .ok (start_grid, end_grid)

/-- A `Rand` that shuffles nothing and always picks index 0; used to
evaluate the generator on concrete inputs. -/
def trivRand : Rand :=
  { shuffle := fun l => l, facePick := fun _ => 0, placePick := fun _ => 0 }

/-- The grid template as assembled (before population): optional begin
row, mid rows, end row. -/
def startTemplate (config : SizeConfig) : List (List Int) :=
  beginRowPrefix config.begin_row ++ config.mid_rows ++ [config.end_row]

/-- Number of `LETTER_PLACEHOLDER` cells in one template row. -/
def countPlaceholders : List Int → Nat
  | [] => 0
  | c :: rest => (if c = LETTER_PLACEHOLDER then 1 else 0) + countPlaceholders rest

/-- Number of `LETTER_PLACEHOLDER` cells in a whole template. -/
def countPlaceholdersG : List (List Int) → Nat
  | [] => 0
  | row :: rest => countPlaceholders row + countPlaceholdersG rest

/-- The values a filled row `g` holds at the positions where the
template row `t` had a `LETTER_PLACEHOLDER`, in position order. -/
def placedAt : List Int → List Int → List Int
  | t :: ts, g :: gs => (if t = LETTER_PLACEHOLDER then [g] else []) ++ placedAt ts gs
  | _, _ => []

/-- `placedAt` lifted to whole grids, row-major. -/
def placedAtG : List (List Int) → List (List Int) → List Int
  | t :: ts, g :: gs => placedAt t g ++ placedAtG ts gs
  | _, _ => []

theorem pyChoice_mem [Inhabited α] (l : List α) (k : Nat) (h : l ≠ []) :
    pyChoice l k ∈ l := by
  have hlt : k % l.length < l.length := Nat.mod_lt _ (List.length_pos.mpr h)
  rw [pyChoice, List.getD_eq_getElem l default hlt]
  exact List.getElem_mem hlt

/-- Core specification of the per-row fill loop: when the pool is large
enough it succeeds, preserves the row length, places into placeholder
positions exactly a sub-multiset of the pool leaving the rest, and every
cell of the result comes from the template row or from the pool. -/
theorem fillRow_spec (r : Rand) :
    ∀ (row avail : List Int) (step : Nat),
      countPlaceholders row ≤ avail.length →
      ∃ row2 avail2 step2,
        fillRow r row avail step = .ok (row2, avail2, step2) ∧
        row2.length = row.length ∧
        (placedAt row row2 ++ avail2).Perm avail ∧
        avail2.length = avail.length - countPlaceholders row ∧
        avail2 ⊆ avail ∧
        (∀ v ∈ row2, v ∈ row ∨ v ∈ avail) := by
  intro row
  induction row with
  | nil =>
    intro avail step _
    exact ⟨[], avail, step, rfl, rfl, by simp [placedAt], by simp [countPlaceholders],
      fun _ hv => hv, by simp⟩
  | cons c rest ih =>
    intro avail step hcount
    by_cases hc : c = LETTER_PLACEHOLDER
    · subst hc
      have hpos : 0 < avail.length := by
        have : 1 + countPlaceholders rest ≤ avail.length := by
          simpa [countPlaceholders] using hcount
        omega
      obtain ⟨a, as, rfl⟩ : ∃ a as, avail = a :: as := by
        cases avail with
        | nil => simp at hpos
        | cons a as => exact ⟨a, as, rfl⟩
      set chosen := pyChoice (a :: as) (r.placePick step) with hchosen
      have hmem : chosen ∈ a :: as := pyChoice_mem _ _ (by simp)
      have herase : ((a :: as).erase chosen).length = (a :: as).length - 1 :=
        List.length_erase_of_mem hmem
      have hcount2 : countPlaceholders rest ≤ ((a :: as).erase chosen).length := by
        have : 1 + countPlaceholders rest ≤ (a :: as).length := by
          simpa [countPlaceholders] using hcount
        omega
      obtain ⟨row2, avail2, step2, heq, hlen, hperm, hlen2, hsub, hmemv⟩ :=
        ih ((a :: as).erase chosen) (step + 1) hcount2
      refine ⟨chosen :: row2, avail2, step2, ?_, by simp [hlen], ?_, ?_, ?_, ?_⟩
      · simp [fillRow, ← hchosen, heq]
      · have h1 : (chosen :: (placedAt rest row2 ++ avail2)).Perm
            (chosen :: (a :: as).erase chosen) := hperm.cons chosen
        simpa [placedAt] using h1.trans (List.perm_cons_erase hmem).symm
      · have : countPlaceholders (LETTER_PLACEHOLDER :: rest) = 1 + countPlaceholders rest := by
          simp [countPlaceholders]
        rw [this]
        omega
      · exact fun v hv => List.erase_subset _ _ (hsub hv)
      · intro v hv
        rcases List.mem_cons.mp hv with hv | hv
        · exact Or.inr (hv ▸ hmem)
        · rcases hmemv v hv with hv2 | hv2
          · exact Or.inl (List.mem_cons_of_mem _ hv2)
          · exact Or.inr (List.erase_subset _ _ hv2)
    · have hcount2 : countPlaceholders rest ≤ avail.length := by
        simpa [countPlaceholders, hc] using hcount
      obtain ⟨row2, avail2, step2, heq, hlen, hperm, hlen2, hsub, hmemv⟩ :=
        ih avail step hcount2
      refine ⟨c :: row2, avail2, step2, ?_, by simp [hlen], ?_, ?_, hsub, ?_⟩
      · simp only [fillRow, if_neg hc]
        rw [heq]
      · simpa [placedAt, hc] using hperm
      · simpa [countPlaceholders, hc] using hlen2
      · intro v hv
        rcases List.mem_cons.mp hv with hv | hv
        · exact Or.inl (hv ▸ List.mem_cons_self _ _)
        · rcases hmemv v hv with hv2 | hv2
          · exact Or.inl (List.mem_cons_of_mem _ hv2)
          · exact Or.inr hv2

/-- Grid-level specification of the fill loops: with a large enough
pool they succeed, preserve the grid shape row for row, place exactly a
sub-multiset of the pool into placeholder positions, and draw every
cell from the template or the pool. -/
theorem fillRows_spec (r : Rand) :
    ∀ (rows : List (List Int)) (avail : List Int) (step : Nat),
      countPlaceholdersG rows ≤ avail.length →
      ∃ rows2 avail2 step2,
        fillRows r rows avail step = .ok (rows2, avail2, step2) ∧
        rows2.length = rows.length ∧
        (∀ g ∈ rows2, ∃ t ∈ rows, g.length = t.length) ∧
        (placedAtG rows rows2 ++ avail2).Perm avail ∧
        avail2.length = avail.length - countPlaceholdersG rows ∧
        avail2 ⊆ avail ∧
        (∀ g ∈ rows2, ∀ v ∈ g, (∃ t ∈ rows, v ∈ t) ∨ v ∈ avail) := by
  intro rows
  induction rows with
  | nil =>
    intro avail step _
    exact ⟨[], avail, step, rfl, rfl, by simp, by simp [placedAtG],
      by simp [countPlaceholdersG], fun _ hv => hv, by simp⟩
  | cons row rest ih =>
    intro avail step hcount
    have hcountrow : countPlaceholders row ≤ avail.length := by
      have : countPlaceholders row + countPlaceholdersG rest ≤ avail.length := by
        simpa [countPlaceholdersG] using hcount
      omega
    obtain ⟨row2, avail2, step2, heq, hlen, hperm, hlen2, hsub, hmemv⟩ :=
      fillRow_spec r row avail step hcountrow
    have hcountrest : countPlaceholdersG rest ≤ avail2.length := by
      have : countPlaceholders row + countPlaceholdersG rest ≤ avail.length := by
        simpa [countPlaceholdersG] using hcount
      omega
    obtain ⟨rows2, avail3, step3, heq2, hlenG, hshape, hpermG, hlen3, hsub2, hmemG⟩ :=
      ih avail2 step2 hcountrest
    refine ⟨row2 :: rows2, avail3, step3, ?_, by simp [hlenG], ?_, ?_, ?_, ?_, ?_⟩
    · simp [fillRows, heq, heq2]
    · intro g hg
      rcases List.mem_cons.mp hg with hg | hg
      · exact ⟨row, List.mem_cons_self _ _, hg ▸ hlen⟩
      · obtain ⟨t, ht, hgt⟩ := hshape g hg
        exact ⟨t, List.mem_cons_of_mem _ ht, hgt⟩
    · have h1 : (placedAt row row2 ++ (placedAtG rest rows2 ++ avail3)).Perm
          (placedAt row row2 ++ avail2) := hpermG.append_left _
      have h2 : (placedAtG (row :: rest) (row2 :: rows2) ++ avail3).Perm
          (placedAt row row2 ++ (placedAtG rest rows2 ++ avail3)) := by
        simp [placedAtG]
      exact (h2.trans h1).trans hperm
    · have hp : (placedAt row row2).length + avail2.length = avail.length :=
        by simpa using hperm.length_eq
      have hpG : (placedAtG rest rows2).length + avail3.length = avail2.length :=
        by simpa using hpermG.length_eq
      simp only [countPlaceholdersG]
      omega
    · exact fun v hv => hsub (hsub2 hv)
    · intro g hg v hv
      rcases List.mem_cons.mp hg with hg | hg
      · rcases hmemv v (hg ▸ hv) with h | h
        · exact Or.inl ⟨row, List.mem_cons_self _ _, h⟩
        · exact Or.inr h
      · rcases hmemG g hg v hv with ⟨t, ht, hvt⟩ | h
        · exact Or.inl ⟨t, List.mem_cons_of_mem _ ht, hvt⟩
        · exact Or.inr (hsub h)

/-- When the pool is strictly smaller than the number of placeholder
cells of one row, the row loop raises the `RuntimeError`. -/
theorem fillRow_error (r : Rand) :
    ∀ (row avail : List Int) (step : Nat),
      avail.length < countPlaceholders row →
      fillRow r row avail step = .error .runtimeErrorMismatch := by
  intro row
  induction row with
  | nil => intro avail step h; simp [countPlaceholders] at h
  | cons c rest ih =>
    intro avail step h
    by_cases hc : c = LETTER_PLACEHOLDER
    · subst hc
      cases avail with
      | nil => simp [fillRow]
      | cons a as =>
        have hlt : ((a :: as).erase (pyChoice (a :: as) (r.placePick step))).length <
            countPlaceholders rest := by
          have hmem : pyChoice (a :: as) (r.placePick step) ∈ a :: as :=
            pyChoice_mem _ _ (by simp)
          have := List.length_erase_of_mem hmem
          have hcnt : countPlaceholders (LETTER_PLACEHOLDER :: rest) =
              1 + countPlaceholders rest := by simp [countPlaceholders]
          rw [hcnt] at h
          simp only [this]
          simp only [List.length_cons] at h ⊢
          omega
        simp [fillRow, ih _ _ hlt]
    · have hlt : avail.length < countPlaceholders rest := by
        have hcnt : countPlaceholders (c :: rest) = countPlaceholders rest := by
          simp [countPlaceholders, hc]
        omega
      simp [fillRow, hc, ih _ _ hlt]

/-- When the pool is strictly smaller than the total number of
placeholder cells, the nested loops raise the `RuntimeError`. -/
theorem fillRows_error (r : Rand) :
    ∀ (rows : List (List Int)) (avail : List Int) (step : Nat),
      avail.length < countPlaceholdersG rows →
      fillRows r rows avail step = .error .runtimeErrorMismatch := by
  intro rows
  induction rows with
  | nil => intro avail step h; simp [countPlaceholdersG] at h
  | cons row rest ih =>
    intro avail step h
    by_cases hrow : countPlaceholders row ≤ avail.length
    · obtain ⟨row2, avail2, step2, heq, _, _, hlen2, _, _⟩ :=
        fillRow_spec r row avail step hrow
      have hlt : avail2.length < countPlaceholdersG rest := by
        have hcnt : countPlaceholdersG (row :: rest) =
            countPlaceholders row + countPlaceholdersG rest := by
          simp [countPlaceholdersG]
        omega
      simp [fillRows, heq, ih _ _ hlt]
    · have := fillRow_error r row avail step (by omega)
      simp [fillRows, this]

theorem rollLettersFrom_length (r : Rand) :
    ∀ (i : Nat) (sh : List (List Char)), (rollLettersFrom r i sh).length = sh.length := by
  intro i sh
  induction sh generalizing i with
  | nil => rfl
  | cons die rest ih => simp [rollLettersFrom, ih]

theorem rollLettersFrom_mem (r : Rand) :
    ∀ (i : Nat) (sh : List (List Char)), (∀ die ∈ sh, die ≠ []) →
      ∀ c ∈ rollLettersFrom r i sh, ∃ die ∈ sh, c ∈ die := by
  intro i sh
  induction sh generalizing i with
  | nil => intro _ c hc; simp [rollLettersFrom] at hc
  | cons die rest ih =>
    intro hne c hc
    rcases List.mem_cons.mp hc with hc | hc
    · exact ⟨die, List.mem_cons_self _ _,
        hc ▸ pyChoice_mem _ _ (hne die (List.mem_cons_self _ _))⟩
    · obtain ⟨d, hd, hcd⟩ := ih (i + 1) (fun d hd => hne d (List.mem_cons_of_mem _ hd)) c hc
      exact ⟨d, List.mem_cons_of_mem _ hd, hcd⟩

theorem rolled_numbers_length (r : Rand) (dice : List (List Char))
    (hperm : (r.shuffle dice).Perm dice) :
    (rolled_numbers r dice).length = dice.length := by
  simp [rolled_numbers, rollLetters, rollLettersFrom_length, hperm.length_eq]

theorem rolled_numbers_mem (r : Rand) (dice : List (List Char))
    (hperm : (r.shuffle dice).Perm dice) (hne : ∀ die ∈ dice, die ≠ []) :
    ∀ v ∈ rolled_numbers r dice, ∃ die ∈ dice, ∃ c ∈ die, v = letterCode c := by
  intro v hv
  obtain ⟨c, hc, rfl⟩ := List.mem_map.mp hv
  obtain ⟨die, hdie, hcd⟩ := rollLettersFrom_mem r 0 (r.shuffle dice)
    (fun d hd => hne d (hperm.mem_iff.mp hd)) c hc
  exact ⟨die, hperm.mem_iff.mp hdie, c, hcd, rfl⟩

/-- Every die of either dice set is nonempty and all its faces encode
into the range 1..26. -/
theorem dice_facts :
    (∀ die ∈ BOGGLE_DICE_4x4, die ≠ [] ∧ ∀ c ∈ die, 1 ≤ letterCode c ∧ letterCode c ≤ 26) ∧
    (∀ die ∈ BOGGLE_DICE_5x5, die ≠ [] ∧ ∀ c ∈ die, 1 ≤ letterCode c ∧ letterCode c ≤ 26) := by
  decide

theorem rolled_numbers_range (r : Rand) (dice : List (List Char))
    (hperm : (r.shuffle dice).Perm dice)
    (hd : ∀ die ∈ dice, die ≠ [] ∧ ∀ c ∈ die, 1 ≤ letterCode c ∧ letterCode c ≤ 26) :
    ∀ v ∈ rolled_numbers r dice, 1 ≤ v ∧ v ≤ 26 := by
  intro v hv
  obtain ⟨die, hdie, c, hc, rfl⟩ :=
    rolled_numbers_mem r dice hperm (fun d hdm => (hd d hdm).1) v hv
  exact (hd die hdie).2 c hc

theorem placedAt_nil_right : ∀ t : List Int, placedAt t [] = [] := by
  intro t; cases t <;> rfl

theorem placedAt_of_no_placeholder :
    ∀ (t g : List Int), (∀ c ∈ t, c ≠ LETTER_PLACEHOLDER) → placedAt t g = [] := by
  intro t
  induction t with
  | nil => intro g _; cases g <;> rfl
  | cons c rest ih =>
    intro g hno
    cases g with
    | nil => rfl
    | cons x xs =>
      have hc : c ≠ LETTER_PLACEHOLDER := hno c (List.mem_cons_self _ _)
      simp [placedAt, hc, ih xs (fun d hd => hno d (List.mem_cons_of_mem _ hd))]

theorem placedAt_map (f : Int → Int) :
    ∀ (t g : List Int), placedAt t (g.map f) = (placedAt t g).map f := by
  intro t
  induction t with
  | nil => intro g; cases g <;> rfl
  | cons c rest ih =>
    intro g
    cases g with
    | nil => rfl
    | cons x xs =>
      by_cases hc : c = LETTER_PLACEHOLDER <;> simp [placedAt, hc, ih xs]

theorem placedAtG_append :
    ∀ (ts1 gs1 ts2 gs2 : List (List Int)), ts1.length = gs1.length →
      placedAtG (ts1 ++ ts2) (gs1 ++ gs2) = placedAtG ts1 gs1 ++ placedAtG ts2 gs2 := by
  intro ts1
  induction ts1 with
  | nil =>
    intro gs1 ts2 gs2 hlen
    have : gs1 = [] := by cases gs1 <;> simp_all
    simp [this, placedAtG]
  | cons t ts ih =>
    intro gs1 ts2 gs2 hlen
    cases gs1 with
    | nil => simp at hlen
    | cons g gs =>
      simp only [List.cons_append, placedAtG, List.append_eq, List.append_assoc]
      rw [ih gs ts2 gs2 (by simpa using hlen)]

theorem placedAtG_map (f : Int → Int) :
    ∀ (ts gs : List (List Int)),
      placedAtG ts (gs.map (List.map f)) = (placedAtG ts gs).map f := by
  intro ts
  induction ts with
  | nil => intro gs; cases gs <;> rfl
  | cons t trest ih =>
    intro gs
    cases gs with
    | nil => rfl
    | cons g grest => simp [placedAtG, placedAt_map, ih grest]

/-- Concrete facts about the fixed templates: placeholder counts match
the dice counts, all rows are 22 cells wide, begin/end rows hold no
placeholder, and no template cell is the end-boundary sentinel `63`. -/
theorem template_facts :
    countPlaceholdersG MID_ROWS_TEMPLATE_4x4 = 16 ∧
    countPlaceholdersG MID_ROWS_TEMPLATE_5x5 = 25 ∧
    BOGGLE_DICE_4x4.length = 16 ∧ BOGGLE_DICE_5x5.length = 25 ∧
    BEGIN_ROW_4x4.length = 22 ∧ END_ROW_4x4.length = 22 ∧ END_ROW_5x5.length = 22 ∧
    (∀ row ∈ MID_ROWS_TEMPLATE_4x4, row.length = 22) ∧
    (∀ row ∈ MID_ROWS_TEMPLATE_5x5, row.length = 22) ∧
    (∀ c ∈ BEGIN_ROW_4x4, c ≠ LETTER_PLACEHOLDER) ∧
    (∀ c ∈ END_ROW_4x4, c ≠ LETTER_PLACEHOLDER) ∧
    (∀ c ∈ END_ROW_5x5, c ≠ LETTER_PLACEHOLDER) ∧
    (∀ c ∈ BEGIN_ROW_4x4, c ≠ BOUNDARY_END) ∧
    (∀ c ∈ END_ROW_4x4, c ≠ BOUNDARY_END) ∧
    (∀ c ∈ END_ROW_5x5, c ≠ BOUNDARY_END) ∧
    (∀ row ∈ MID_ROWS_TEMPLATE_4x4, ∀ c ∈ row, c ≠ BOUNDARY_END) ∧
    (∀ row ∈ MID_ROWS_TEMPLATE_5x5, ∀ c ∈ row, c ≠ BOUNDARY_END) := by
  decide

/-- Master success lemma: with a genuine shuffle permutation and the
placeholder count matching the dice count, `generate_boggle_grids`
succeeds, the whole rolled pool is consumed, and the returned grids
have the assembled shape with the end grid the cell-wise boundary
transform of the start grid. -/
theorem generate_ok (r : Rand) (size : Int) (config : SizeConfig)
    (hcfg : BOGGLE_CONFIG size = some config)
    (hperm : (r.shuffle config.dice).Perm config.dice)
    (hcount : countPlaceholdersG config.mid_rows = config.dice.length) :
    ∃ populated step2,
      fillRows r config.mid_rows (rolled_numbers r config.dice) 0 =
        .ok (populated, [], step2) ∧
      generate_boggle_grids r size = .ok
        (beginRowPrefix config.begin_row ++ populated ++ [config.end_row],
         (beginRowPrefix config.begin_row ++ populated ++ [config.end_row]).map
           (List.map boundaryCell)) ∧
      (placedAtG config.mid_rows populated).Perm (rolled_numbers r config.dice) ∧
      populated.length = config.mid_rows.length ∧
      (∀ g ∈ populated, ∃ t ∈ config.mid_rows, g.length = t.length) ∧
      (∀ g ∈ populated, ∀ v ∈ g,
        (∃ t ∈ config.mid_rows, v ∈ t) ∨ v ∈ rolled_numbers r config.dice) := by
  have hlen : (rolled_numbers r config.dice).length = config.dice.length :=
    rolled_numbers_length r config.dice hperm
  obtain ⟨populated, avail2, step2, heq, hlenG, hshape, hpermG, hlen2, _, hmemG⟩ :=
    fillRows_spec r config.mid_rows (rolled_numbers r config.dice) 0 (by omega)
  have havail2 : avail2 = [] := by
    have : avail2.length = 0 := by omega
    exact List.length_eq_zero.mp this
  subst havail2
  refine ⟨populated, step2, heq, ?_, by simpa using hpermG, hlenG, hshape, hmemG⟩
  simp [generate_boggle_grids, hcfg, heq]

theorem placedAtG_of_no_placeholder :
    ∀ (ts gs : List (List Int)),
      (∀ row ∈ ts, ∀ c ∈ row, c ≠ LETTER_PLACEHOLDER) → placedAtG ts gs = [] := by
  intro ts
  induction ts with
  | nil => intro gs _; cases gs <;> rfl
  | cons t rest ih =>
    intro gs hno
    cases gs with
    | nil => rfl
    | cons g grest =>
      simp [placedAtG, placedAt_of_no_placeholder t g (hno t (List.mem_cons_self _ _)),
        ih grest (fun row hr => hno row (List.mem_cons_of_mem _ hr))]

/-- A key in `BOGGLE_CONFIG` resolves to one of the two concrete
configuration values. -/
theorem config_cases (size : Int) (config : SizeConfig)
    (hcfg : BOGGLE_CONFIG size = some config) :
    config = ⟨BOGGLE_DICE_4x4, some BEGIN_ROW_4x4, MID_ROWS_TEMPLATE_4x4, END_ROW_4x4⟩ ∨
    config = ⟨BOGGLE_DICE_5x5, none, MID_ROWS_TEMPLATE_5x5, END_ROW_5x5⟩ := by
  unfold BOGGLE_CONFIG at hcfg
  by_cases h4 : size = 4
  · simp [h4] at hcfg
    exact Or.inl hcfg.symm
  · by_cases h5 : size = 5
    · simp [h4, h5] at hcfg
      exact Or.inr hcfg.symm
    · simp [h4, h5] at hcfg

/-- The facts the claims need about each of the two concrete
configurations, established once by evaluation. -/
theorem config_facts (size : Int) (config : SizeConfig)
    (hcfg : BOGGLE_CONFIG size = some config) :
    countPlaceholdersG config.mid_rows = config.dice.length ∧
    (∀ die ∈ config.dice, die ≠ [] ∧ ∀ c ∈ die, 1 ≤ letterCode c ∧ letterCode c ≤ 26) ∧
    (beginRowPrefix config.begin_row).length + config.mid_rows.length + 1 = 6 ∧
    (∀ row ∈ startTemplate config, row.length = 22) ∧
    (∀ row ∈ beginRowPrefix config.begin_row, ∀ c ∈ row, c ≠ LETTER_PLACEHOLDER) ∧
    (∀ c ∈ config.end_row, c ≠ LETTER_PLACEHOLDER) ∧
    (∀ row ∈ startTemplate config, ∀ c ∈ row, c ≠ BOUNDARY_END) := by
  rcases config_cases size config hcfg with rfl | rfl
  · exact ⟨by decide, dice_facts.1, by decide, by decide, by decide, by decide, by decide⟩
  · exact ⟨by decide, dice_facts.2, by decide, by decide, by decide, by decide, by decide⟩

/-- Full specification of a successful call: the shapes of both grids,
the boundary-transform relation between them, the multiset of values at
placeholder positions, their range, and the origin of every cell. -/
theorem generate_full_spec (r : Rand) (size : Int) (config : SizeConfig)
    (hcfg : BOGGLE_CONFIG size = some config)
    (hperm : (r.shuffle config.dice).Perm config.dice) :
    ∃ s e, generate_boggle_grids r size = .ok (s, e) ∧
      e = s.map (List.map boundaryCell) ∧
      s.length = 6 ∧ (∀ row ∈ s, row.length = 22) ∧
      (placedAtG (startTemplate config) s).Perm (rolled_numbers r config.dice) ∧
      (∀ v ∈ placedAtG (startTemplate config) s, 1 ≤ v ∧ v ≤ 26) ∧
      (∀ row ∈ s, ∀ v ∈ row, (∃ t ∈ startTemplate config, v ∈ t) ∨ (1 ≤ v ∧ v ≤ 26)) := by
  obtain ⟨hcount, hdice, hprelen, hrow22, hpre, hend, _⟩ := config_facts size config hcfg
  obtain ⟨pop, step2, hfill, hgen, hpermG, hpoplen, hshape, hmemG⟩ :=
    generate_ok r size config hcfg hperm hcount
  set pre := beginRowPrefix config.begin_row with hpredef
  have hplaced : placedAtG (startTemplate config) (pre ++ pop ++ [config.end_row]) =
      placedAtG config.mid_rows pop := by
    rw [startTemplate, ← hpredef, List.append_assoc, List.append_assoc,
      placedAtG_append pre pre _ _ rfl,
      placedAtG_append config.mid_rows pop _ _ hpoplen.symm]
    simp [placedAtG_of_no_placeholder pre _ hpre,
      placedAtG, placedAt_of_no_placeholder _ _ hend]
  have hrange : ∀ v ∈ rolled_numbers r config.dice, 1 ≤ v ∧ v ≤ 26 :=
    rolled_numbers_range r config.dice hperm hdice
  refine ⟨_, _, hgen, rfl, ?_, ?_, ?_, ?_, ?_⟩
  · simp only [List.length_append, List.length_cons, List.length_nil]
    omega
  · intro row hrow
    rcases List.mem_append.mp hrow with hrow | hrow
    · rcases List.mem_append.mp hrow with hrow | hrow
      · exact hrow22 row (by simp [startTemplate, ← hpredef, hrow])
      · obtain ⟨t, ht, hlen⟩ := hshape row hrow
        rw [hlen]
        exact hrow22 t (by simp [startTemplate, ht])
    · have : row = config.end_row := by simpa using hrow
      exact this ▸ hrow22 config.end_row (by simp [startTemplate])
  · rw [hplaced]
    exact hpermG
  · intro v hv
    rw [hplaced] at hv
    exact hrange v (hpermG.mem_iff.mp hv)
  · intro row hrow v hv
    rcases List.mem_append.mp hrow with hrow | hrow
    · rcases List.mem_append.mp hrow with hrow | hrow
      · exact Or.inl ⟨row, by simp [startTemplate, ← hpredef, hrow], hv⟩
      · rcases hmemG row hrow v hv with ⟨t, ht, hvt⟩ | hvr
        · exact Or.inl ⟨t, by simp [startTemplate, ht], hvt⟩
        · exact Or.inr (hrange v hvr)
    · have : row = config.end_row := by simpa using hrow
      exact Or.inl ⟨config.end_row, by simp [startTemplate], this ▸ hv⟩

theorem map_boundaryCell_id (row : List Int) (h : ∀ c ∈ row, c ≠ BOUNDARY_START) :
    row.map boundaryCell = row := by
  induction row with
  | nil => rfl
  | cons c rest ih =>
    have hc : c ≠ BOUNDARY_START := h c (List.mem_cons_self _ _)
    simp [boundaryCell, hc, ih (fun d hd => h d (List.mem_cons_of_mem _ hd))]

theorem roundtrip_row (row : List Int) (h : ∀ c ∈ row, c ≠ BOUNDARY_END) :
    (row.map boundaryCell).map
      (fun c => if c = BOUNDARY_END then BOUNDARY_START else c) = row := by
  induction row with
  | nil => rfl
  | cons c rest ih =>
    have hc : c ≠ BOUNDARY_END := h c (List.mem_cons_self _ _)
    have hrest := ih (fun d hd => h d (List.mem_cons_of_mem _ hd))
    have hhead : (if boundaryCell c = BOUNDARY_END then BOUNDARY_START
        else boundaryCell c) = c := by
      by_cases hb : c = BOUNDARY_START
      · simp [boundaryCell, hb]
      · simp [boundaryCell, hb, hc]
    simp only [List.map_cons, hhead, hrest]

/-- C1: for every integer size outside `{4, 5}`, `generate_boggle_grids`
fails with the `ValueError` (the `UnsupportedSize` error), and it does
so for every possible random behaviour `r` — the result does not depend
on any dice roll, template copy or grid construction, so none happens
before the failure and no partial grid is produced. -/
theorem C1_unsupported_size (r : Rand) (size : Int) (h4 : size ≠ 4) (h5 : size ≠ 5) :
    generate_boggle_grids r size = .error (.valueErrorUnsupportedSize size) := by
  simp [generate_boggle_grids, BOGGLE_CONFIG, h4, h5]

theorem C1_unsupported_size_witness :
    generate_boggle_grids trivRand 3 = .error (.valueErrorUnsupportedSize 3) ∧
    generate_boggle_grids trivRand 6 = .error (.valueErrorUnsupportedSize 6) :=
  ⟨C1_unsupported_size trivRand 3 (by decide) (by decide),
   C1_unsupported_size trivRand 6 (by decide) (by decide)⟩

/-- C2 counterexample: with two rolled codes and a single placeholder
cell (counts disagreeing in the leftover direction), the fill loop
succeeds and silently leaves the extra letter over — it does not fail
with the mismatch error, contradicting the claim that both directions
are validated. -/
theorem C2_counterexample :
    countPlaceholdersG [[LETTER_PLACEHOLDER]] = 1 ∧
    ([(5 : Int), 7]).length = 2 ∧
    fillRows trivRand [[LETTER_PLACEHOLDER]] [(5 : Int), 7] 0 ≠
      .error .runtimeErrorMismatch ∧
    fillRows trivRand [[LETTER_PLACEHOLDER]] [(5 : Int), 7] 0 = .ok ([[5]], [7], 1) := by
  have hok : fillRows trivRand [[LETTER_PLACEHOLDER]] [(5 : Int), 7] 0 =
      .ok ([[5]], [7], 1) := rfl
  refine ⟨by decide, by decide, ?_, hok⟩
  rw [hok]
  intro h
  exact Except.noConfusion h

/-- C2 amended: the fill loop validates only the underflow direction.
If the pool is strictly smaller than the number of placeholder cells it
fails with the `RuntimeError` mismatch; if the pool is at least as
large, it succeeds and any surplus letters are silently left unused
(exactly the pool size minus the placeholder count remain). -/
theorem C2_amended_underflow_only (r : Rand) (rows : List (List Int))
    (avail : List Int) (step : Nat) :
    (avail.length < countPlaceholdersG rows →
      fillRows r rows avail step = .error .runtimeErrorMismatch) ∧
    (countPlaceholdersG rows ≤ avail.length →
      ∃ rows2 avail2 step2, fillRows r rows avail step = .ok (rows2, avail2, step2) ∧
        avail2.length = avail.length - countPlaceholdersG rows) := by
  constructor
  · exact fillRows_error r rows avail step
  · intro h
    obtain ⟨rows2, avail2, step2, heq, _, _, _, hlen, _, _⟩ := fillRows_spec r rows avail step h
    exact ⟨rows2, avail2, step2, heq, hlen⟩

theorem C2_amended_underflow_only_witness :
    fillRows trivRand [[LETTER_PLACEHOLDER, LETTER_PLACEHOLDER]] [(3 : Int)] 0 =
      .error .runtimeErrorMismatch ∧
    ∃ rows2 avail2 step2,
      fillRows trivRand [[LETTER_PLACEHOLDER]] [(3 : Int), 4] 0 = .ok (rows2, avail2, step2) ∧
      avail2.length =
        ([(3 : Int), 4]).length - countPlaceholdersG [[LETTER_PLACEHOLDER]] :=
  ⟨(C2_amended_underflow_only trivRand [[LETTER_PLACEHOLDER, LETTER_PLACEHOLDER]]
      [(3 : Int)] 0).1 (by decide),
   (C2_amended_underflow_only trivRand [[LETTER_PLACEHOLDER]] [(3 : Int), 4] 0).2 (by decide)⟩

/-- C3: for every supported size (a key of `BOGGLE_CONFIG`, i.e. 4 or 5)
and every shuffle implementation that permutes its input,
`generate_boggle_grids` returns a pair of grids each having exactly 6
rows of exactly 22 integer cells. -/
theorem C3_grid_dimensions (r : Rand) (size : Int) (config : SizeConfig)
    (hcfg : BOGGLE_CONFIG size = some config)
    (hshuffle : ∀ l : List (List Char), (r.shuffle l).Perm l) :
    ∃ s e, generate_boggle_grids r size = .ok (s, e) ∧
      s.length = 6 ∧ (∀ row ∈ s, row.length = 22) ∧
      e.length = 6 ∧ (∀ row ∈ e, row.length = 22) := by
  obtain ⟨s, e, hgen, hmap, hslen, hrows, _, _, _⟩ :=
    generate_full_spec r size config hcfg (hshuffle _)
  refine ⟨s, e, hgen, hslen, hrows, ?_, ?_⟩
  · simp [hmap, hslen]
  · intro row hrow
    rw [hmap] at hrow
    obtain ⟨row0, hrow0, rfl⟩ := List.mem_map.mp hrow
    simp [hrows row0 hrow0]

/-- C4: for each supported size the template's placeholder count equals
the dice count (16 and 16 for size 4, 25 and 25 for size 5), and the
fill loop run on a pool of exactly that many codes consumes all of them
— it succeeds with an empty remaining pool and places exactly that many
values. -/
theorem C4_counts_match (r : Rand) (avail4 avail5 : List Int) (step : Nat)
    (h4 : avail4.length = BOGGLE_DICE_4x4.length)
    (h5 : avail5.length = BOGGLE_DICE_5x5.length) :
    countPlaceholdersG MID_ROWS_TEMPLATE_4x4 = 16 ∧ BOGGLE_DICE_4x4.length = 16 ∧
    countPlaceholdersG MID_ROWS_TEMPLATE_5x5 = 25 ∧ BOGGLE_DICE_5x5.length = 25 ∧
    (∃ g s2, fillRows r MID_ROWS_TEMPLATE_4x4 avail4 step = .ok (g, [], s2) ∧
      (placedAtG MID_ROWS_TEMPLATE_4x4 g).length = 16) ∧
    (∃ g s2, fillRows r MID_ROWS_TEMPLATE_5x5 avail5 step = .ok (g, [], s2) ∧
      (placedAtG MID_ROWS_TEMPLATE_5x5 g).length = 25) := by
  have hc4 : countPlaceholdersG MID_ROWS_TEMPLATE_4x4 = 16 := by decide
  have hc5 : countPlaceholdersG MID_ROWS_TEMPLATE_5x5 = 25 := by decide
  have hd4 : BOGGLE_DICE_4x4.length = 16 := by decide
  have hd5 : BOGGLE_DICE_5x5.length = 25 := by decide
  refine ⟨hc4, hd4, hc5, hd5, ?_, ?_⟩
  · obtain ⟨g, avail2, s2, heq, _, _, hperm, hlen, _, _⟩ :=
      fillRows_spec r MID_ROWS_TEMPLATE_4x4 avail4 step (by omega)
    have hnil : avail2 = [] := List.length_eq_zero.mp (by omega)
    subst hnil
    have hplen : (placedAtG MID_ROWS_TEMPLATE_4x4 g).length = avail4.length := by
      simpa using hperm.length_eq
    exact ⟨g, s2, heq, by omega⟩
  · obtain ⟨g, avail2, s2, heq, _, _, hperm, hlen, _, _⟩ :=
      fillRows_spec r MID_ROWS_TEMPLATE_5x5 avail5 step (by omega)
    have hnil : avail2 = [] := List.length_eq_zero.mp (by omega)
    subst hnil
    have hplen : (placedAtG MID_ROWS_TEMPLATE_5x5 g).length = avail5.length := by
      simpa using hperm.length_eq
    exact ⟨g, s2, heq, by omega⟩

/-- C5: in every start grid of a successful generation, the multiset of
values at the former placeholder positions equals exactly the multiset
of rolled letter codes — no code dropped, none duplicated — for every
random behaviour whose shuffle permutes its input. -/
theorem C5_placed_multiset (r : Rand) (size : Int) (config : SizeConfig)
    (hcfg : BOGGLE_CONFIG size = some config)
    (hshuffle : ∀ l : List (List Char), (r.shuffle l).Perm l) :
    ∃ s e, generate_boggle_grids r size = .ok (s, e) ∧
      (placedAtG (startTemplate config) s).Perm (rolled_numbers r config.dice) := by
  obtain ⟨s, e, hgen, _, _, _, hperm, _, _⟩ :=
    generate_full_spec r size config hcfg (hshuffle _)
  exact ⟨s, e, hgen, hperm⟩

/-- C6: every value a successful generation places into a former
placeholder cell lies in the inclusive range 1..26, in the start grid
and at the same positions in the end grid, because every die face is a
letter whose 1-based alphabet position is taken. -/
theorem C6_codes_in_range (r : Rand) (size : Int) (config : SizeConfig)
    (hcfg : BOGGLE_CONFIG size = some config)
    (hshuffle : ∀ l : List (List Char), (r.shuffle l).Perm l) :
    ∃ s e, generate_boggle_grids r size = .ok (s, e) ∧
      (∀ v ∈ placedAtG (startTemplate config) s, 1 ≤ v ∧ v ≤ 26) ∧
      (∀ v ∈ placedAtG (startTemplate config) e, 1 ≤ v ∧ v ≤ 26) := by
  obtain ⟨s, e, hgen, hmap, _, _, _, hrange, _⟩ :=
    generate_full_spec r size config hcfg (hshuffle _)
  refine ⟨s, e, hgen, hrange, ?_⟩
  intro v hv
  rw [hmap, placedAtG_map] at hv
  obtain ⟨w, hw, rfl⟩ := List.mem_map.mp hv
  have hwr := hrange w hw
  have hne : w ≠ BOUNDARY_START := by
    intro hcontra
    rw [hcontra] at hwr
    exact absurd hwr.2 (by decide)
  simpa [boundaryCell, hne] using hwr

/-- C7: the end grid is the deterministic cell-wise image of the start
grid — every cell equal to the start sentinel 66 becomes 63 and every
other cell is unchanged at the same position — and in particular the
values at the former placeholder positions are identical, in order,
between the two grids. -/
theorem C7_boundary_transform (r : Rand) (size : Int) (config : SizeConfig)
    (hcfg : BOGGLE_CONFIG size = some config)
    (hshuffle : ∀ l : List (List Char), (r.shuffle l).Perm l) :
    ∃ (s e : List (List Int)), generate_boggle_grids r size = .ok (s, e) ∧
      e.length = s.length ∧
      (∀ (i j : Nat) (a : Int), (s[i]?.bind fun row => row[j]?) = some a →
        (e[i]?.bind fun row => row[j]?) =
          some (if a = BOUNDARY_START then BOUNDARY_END else a)) ∧
      placedAtG (startTemplate config) e = placedAtG (startTemplate config) s := by
  obtain ⟨s, e, hgen, hmap, _, _, _, hrange, _⟩ :=
    generate_full_spec r size config hcfg (hshuffle _)
  refine ⟨s, e, hgen, by simp [hmap], ?_, ?_⟩
  · intro i j a ha
    rw [Option.bind_eq_some] at ha
    obtain ⟨row, hrow, hcell⟩ := ha
    rw [hmap]
    simp only [List.getElem?_map]
    rw [hrow]
    simp [List.getElem?_map, hcell, boundaryCell]
  · rw [hmap, placedAtG_map]
    apply map_boundaryCell_id
    intro c hc
    have hcr := hrange c hc
    intro hcontra
    rw [hcontra] at hcr
    exact absurd hcr.2 (by decide)

/-- C9: a start grid of a successful generation never contains the end
sentinel 63 — its cells are template cells (none of which is 63) or
letter codes in 1..26 — so replacing every 63 by 66 in the end grid
reconstructs the start grid exactly: the boundary substitution is
invertible on every reachable start grid. -/
theorem C9_roundtrip (r : Rand) (size : Int) (config : SizeConfig)
    (hcfg : BOGGLE_CONFIG size = some config)
    (hshuffle : ∀ l : List (List Char), (r.shuffle l).Perm l) :
    ∃ s e, generate_boggle_grids r size = .ok (s, e) ∧
      (∀ row ∈ s, ∀ c ∈ row, c ≠ BOUNDARY_END) ∧
      e.map (List.map fun c => if c = BOUNDARY_END then BOUNDARY_START else c) = s := by
  obtain ⟨_, _, _, _, _, _, hno63⟩ := config_facts size config hcfg
  obtain ⟨s, e, hgen, hmap, _, _, _, _, horigin⟩ :=
    generate_full_spec r size config hcfg (hshuffle _)
  have hs63 : ∀ row ∈ s, ∀ c ∈ row, c ≠ BOUNDARY_END := by
    intro row hrow c hc
    rcases horigin row hrow c hc with ⟨t, ht, hct⟩ | hrangec
    · exact hno63 t ht c hct
    · intro hcontra
      rw [hcontra] at hrangec
      exact absurd hrangec.2 (by decide)
  refine ⟨s, e, hgen, hs63, ?_⟩
  rw [hmap]
  rw [List.map_map]
  have : ∀ row ∈ s,
      ((List.map fun c => if c = BOUNDARY_END then BOUNDARY_START else c) ∘
        List.map boundaryCell) row = row := by
    intro row hrow
    simpa [Function.comp] using roundtrip_row row (hs63 row hrow)
  calc s.map _ = s.map id := List.map_congr_left this
    _ = s := List.map_id s

/-- The size-4 configuration value, used to instantiate witnesses. -/
def config4 : SizeConfig :=
  ⟨BOGGLE_DICE_4x4, some BEGIN_ROW_4x4, MID_ROWS_TEMPLATE_4x4, END_ROW_4x4⟩

/-- The size-5 configuration value, used to instantiate witnesses. -/
def config5 : SizeConfig :=
  ⟨BOGGLE_DICE_5x5, none, MID_ROWS_TEMPLATE_5x5, END_ROW_5x5⟩

theorem C3_grid_dimensions_witness :
    ∃ s e, generate_boggle_grids trivRand 4 = .ok (s, e) ∧
      s.length = 6 ∧ (∀ row ∈ s, row.length = 22) ∧
      e.length = 6 ∧ (∀ row ∈ e, row.length = 22) :=
  C3_grid_dimensions trivRand 4 config4 rfl (fun l => List.Perm.refl l)

theorem C4_counts_match_witness :
    countPlaceholdersG MID_ROWS_TEMPLATE_4x4 = 16 ∧ BOGGLE_DICE_4x4.length = 16 ∧
    countPlaceholdersG MID_ROWS_TEMPLATE_5x5 = 25 ∧ BOGGLE_DICE_5x5.length = 25 ∧
    (∃ g s2, fillRows trivRand MID_ROWS_TEMPLATE_4x4 (List.replicate 16 (1 : Int)) 0 =
        .ok (g, [], s2) ∧ (placedAtG MID_ROWS_TEMPLATE_4x4 g).length = 16) ∧
    (∃ g s2, fillRows trivRand MID_ROWS_TEMPLATE_5x5 (List.replicate 25 (1 : Int)) 0 =
        .ok (g, [], s2) ∧ (placedAtG MID_ROWS_TEMPLATE_5x5 g).length = 25) :=
  C4_counts_match trivRand (List.replicate 16 (1 : Int)) (List.replicate 25 (1 : Int)) 0
    (by decide) (by decide)

theorem C5_placed_multiset_witness :
    ∃ s e, generate_boggle_grids trivRand 5 = .ok (s, e) ∧
      (placedAtG (startTemplate config5) s).Perm (rolled_numbers trivRand config5.dice) :=
  C5_placed_multiset trivRand 5 config5 rfl (fun l => List.Perm.refl l)

theorem C6_codes_in_range_witness :
    ∃ s e, generate_boggle_grids trivRand 4 = .ok (s, e) ∧
      (∀ v ∈ placedAtG (startTemplate config4) s, 1 ≤ v ∧ v ≤ 26) ∧
      (∀ v ∈ placedAtG (startTemplate config4) e, 1 ≤ v ∧ v ≤ 26) :=
  C6_codes_in_range trivRand 4 config4 rfl (fun l => List.Perm.refl l)

theorem C7_boundary_transform_witness :
    ∃ (s e : List (List Int)), generate_boggle_grids trivRand 4 = .ok (s, e) ∧
      e.length = s.length ∧
      (∀ (i j : Nat) (a : Int), (s[i]?.bind fun row => row[j]?) = some a →
        (e[i]?.bind fun row => row[j]?) =
          some (if a = BOUNDARY_START then BOUNDARY_END else a)) ∧
      placedAtG (startTemplate config4) e = placedAtG (startTemplate config4) s :=
  C7_boundary_transform trivRand 4 config4 rfl (fun l => List.Perm.refl l)

theorem C9_roundtrip_witness :
    ∃ s e, generate_boggle_grids trivRand 5 = .ok (s, e) ∧
      (∀ row ∈ s, ∀ c ∈ row, c ≠ BOUNDARY_END) ∧
      e.map (List.map fun c => if c = BOUNDARY_END then BOUNDARY_START else c) = s :=
  C9_roundtrip trivRand 5 config5 rfl (fun l => List.Perm.refl l)

/-- A successful generation never returns an empty grid (the start grid
always ends with the end row, and the end grid mirrors it). -/
theorem generate_nonempty (r : Rand) (size : Int) (s e : List (List Int))
    (h : generate_boggle_grids r size = .ok (s, e)) : s ≠ [] ∧ e ≠ [] := by
  cases hc : BOGGLE_CONFIG size with
  | none => simp [generate_boggle_grids, hc] at h
  | some config =>
    simp only [generate_boggle_grids, hc] at h
    cases hf : fillRows r config.mid_rows (rolled_numbers r config.dice) 0 with
    | error ex => rw [hf] at h; exact Except.noConfusion h
    | ok res =>
      obtain ⟨pop, avail2, step2⟩ := res
      rw [hf] at h
      simp only [Except.ok.injEq, Prod.mk.injEq] at h
      obtain ⟨hs, he⟩ := h
      constructor
      · rw [← hs]; simp
      · rw [← he]; simp

end Boggle

namespace Main

/-- The three failure categories the Vestaboard connector can report
(`VestaboardAuthError`, `VestaboardInvalidCharsError` and the base
`VestaboardError`, all subclasses of `VestaboardError`). -/
inductive VestaboardFailure where
  | authError
  | invalidCharsError
  | otherError
deriving DecidableEq, Repr

/-- Status code the endpoint maps a start-grid send failure to:
`503 if isinstance(vex, VestaboardAuthError) else 502`. -/
def vexStatus (v : VestaboardFailure) : Nat :=
  if v = .authError then 503 else 502

/-- Observable outcome of one `POST /games/boggle` request: the HTTP
response (an `HTTPException` status/detail or the success payload), the
grids passed synchronously to the collaborator's `send_array`, and the
grids whose delayed send was scheduled via `background_tasks.add_task`. -/
structure BoggleOutcome where
  response : Except (Nat × String) String
  sendCalls : List (List (List Int))
  scheduled : List (List (List Int))
deriving Repr

/-- `start_boggle_game` from `src/app/main.py`: reject sizes outside
`{4, 5}` with 400; generate the grids (any generation exception,
including empty grids, becomes a 500); send the start grid, mapping a
connector failure to 503/502 with no task scheduled; on success
schedule the delayed end-grid send and return the queued message. -/
def start_boggle_game (r : Boggle.Rand) (size : Int)
    (send_array : List (List Int) → Except VestaboardFailure Unit) : BoggleOutcome :=
  if ¬(size = 4 ∨ size = 5) then
    { response := .error (400, "Invalid Boggle size. Must be 4 or 5."),
      sendCalls := [], scheduled := [] }
  else
    match Boggle.generate_boggle_grids r size with
    | .error _ =>
      { response := .error (500, "Error creating game grids"),
        sendCalls := [], scheduled := [] }
    | .ok (start_grid, end_grid) =>
      if start_grid.isEmpty ∨ end_grid.isEmpty then
        { response := .error (500, "Error creating game grids"),
          sendCalls := [], scheduled := [] }
      else
        match send_array start_grid with
        | .error vex =>
          { response := .error (vexStatus vex, "Vestaboard error initiating game"),
            sendCalls := [start_grid], scheduled := [] }
        | .ok _ =>
          { response := .ok "Boggle game queued.",
            sendCalls := [start_grid], scheduled := [end_grid] }

/-- C8: if the start-grid send fails with any connector failure
(authentication, validation or transport), the request reports the
failure (503 for authentication, 502 otherwise), the collaborator's
`send_array` was invoked exactly once (with the start grid), and no
delayed end-grid send is scheduled. -/
theorem C8_start_failure_no_schedule (r : Boggle.Rand) (size : Int)
    (send_array : List (List Int) → Except VestaboardFailure Unit)
    (v : VestaboardFailure) (s e : List (List Int))
    (hsize : size = 4 ∨ size = 5)
    (hgen : Boggle.generate_boggle_grids r size = .ok (s, e))
    (hfail : send_array s = .error v) :
    start_boggle_game r size send_array =
      { response := .error (vexStatus v, "Vestaboard error initiating game"),
        sendCalls := [s], scheduled := [] } := by
  obtain ⟨hs, he⟩ := Boggle.generate_nonempty r size s e hgen
  have hs2 : s.isEmpty = false := by
    cases s with
    | nil => exact absurd rfl hs
    | cons a l => rfl
  have he2 : e.isEmpty = false := by
    cases e with
    | nil => exact absurd rfl he
    | cons a l => rfl
  simp [start_boggle_game, hsize, hgen, hfail, hs2, he2]

/-- The start grid produced by the deterministic `trivRand` at size 4,
extracted from the generator (used to instantiate witnesses). -/
def startGrid4Triv : List (List Int) :=
  match Boggle.generate_boggle_grids Boggle.trivRand 4 with
  | .ok (s, _) => s
  | .error _ => []

/-- The end grid produced by the deterministic `trivRand` at size 4. -/
def endGrid4Triv : List (List Int) :=
  match Boggle.generate_boggle_grids Boggle.trivRand 4 with
  | .ok (_, e) => e
  | .error _ => []

theorem C8_start_failure_no_schedule_witness :
    start_boggle_game Boggle.trivRand 4 (fun _ => .error .authError) =
      { response := .error (vexStatus .authError, "Vestaboard error initiating game"),
        sendCalls := [startGrid4Triv], scheduled := [] } :=
  C8_start_failure_no_schedule Boggle.trivRand 4 (fun _ => .error .authError)
    .authError startGrid4Triv endGrid4Triv (Or.inl rfl) rfl rfl

end Main

namespace BoggleHeap

/-!
A store-passing embedding of the same function, used only to settle the
frame claim: Python lists are mutable objects, so we give each list
object an address in an explicit heap and mirror every copy
(`dice_set[:]`, `copy.deepcopy`), in-place shuffle, and cell assignment
as heap operations.  The module-level configuration occupies the lower
addresses of the initial heap; the theorem shows a call never changes
any of them.
-/

/-- A Python list object: a list of ints (template/grid row), a list of
one-letter strings (a die), or a list of references (an outer list
holding other list objects). -/
inductive Obj where
  | ints : List Int → Obj
  | strs : List Char → Obj
  | refs : List Nat → Obj
deriving DecidableEq, Repr

/-- The heap: object addressed by its index. -/
abbrev Heap := List Obj

/-- Allocate a fresh object, returning its address. -/
def alloc (h : Heap) (o : Obj) : Heap × Nat := (List.append h [o], List.length h)

/-- Overwrite the object at an (allocated) address. -/
def write (h : Heap) (a : Nat) (o : Obj) : Heap := List.set h a o

/-- Read an int-list object (a row). -/
def readInts (h : Heap) (a : Nat) : List Int :=
  match List.getD h a (.ints []) with
  | .ints l => l
  | _ => []

/-- Read a die object. -/
def readStrs (h : Heap) (a : Nat) : List Char :=
  match List.getD h a (.strs []) with
  | .strs l => l
  | _ => []

/-- Read a reference-list object. -/
def readRefs (h : Heap) (a : Nat) : List Nat :=
  match List.getD h a (.refs []) with
  | .refs l => l
  | _ => []

/-- Addresses of the per-size configuration objects. -/
structure ConfigAddrs where
  diceList : Nat
  begin_row : Option Nat
  midList : Nat
  end_row : Nat

/-- `copy.deepcopy` of a list of rows: allocate a fresh copy of each
row object, returning the new addresses. -/
def deepcopyRows (h : Heap) : List Nat → Heap × List Nat
  | [] => (h, [])
  | a :: rest =>
    let p := alloc h (.ints (readInts h a))
    let q := deepcopyRows p.1 rest
    (q.1, p.2 :: q.2)

/-- The placeholder-filling inner loop on the row object at address
`a`, iterating the listed column indices; `none` models the
`RuntimeError` raised on an exhausted pool. -/
def fillColsHeap (r : Boggle.Rand) (a : Nat) :
    List Nat → Heap → List Int → Nat → Heap × Option (List Int × Nat)
  | [], h, avail, step => (h, some (avail, step))
  | c :: cs, h, avail, step =>
    let row := readInts h a
    if row.getD c 0 = Boggle.LETTER_PLACEHOLDER then
      match avail with
      | [] => (h, none)
      | a1 :: as =>
        let chosen := Boggle.pyChoice (a1 :: as) (r.placePick step)
        fillColsHeap r a cs (write h a (.ints (row.set c chosen)))
          ((a1 :: as).erase chosen) (step + 1)
    else fillColsHeap r a cs h avail step

/-- The outer filling loop over the row objects. -/
def fillRowsHeap (r : Boggle.Rand) :
    List Nat → Heap → List Int → Nat → Heap × Option (List Int × Nat)
  | [], h, avail, step => (h, some (avail, step))
  | a :: rest, h, avail, step =>
    match fillColsHeap r a (List.range (readInts h a).length) h avail step with
    | (h2, none) => (h2, none)
    | (h2, some (avail2, step2)) => fillRowsHeap r rest h2 avail2 step2

/-- The end-grid boundary loop on the row object at address `a`:
assign `BOUNDARY_END` into every cell currently holding
`BOUNDARY_START`. -/
def boundaryColsHeap (a : Nat) : List Nat → Heap → Heap
  | [], h => h
  | c :: cs, h =>
    let row := readInts h a
    if row.getD c 0 = Boggle.BOUNDARY_START then
      boundaryColsHeap a cs (write h a (.ints (row.set c Boggle.BOUNDARY_END)))
    else boundaryColsHeap a cs h

/-- The end-grid boundary loop over the row objects. -/
def boundaryRowsHeap : List Nat → Heap → Heap
  | [], h => h
  | a :: rest, h =>
    boundaryRowsHeap rest (boundaryColsHeap a (List.range (readInts h a).length) h)

/-- `shuffled_dice = dice_set[:]; shuffle(shuffled_dice)` followed by
the roll and conversion: allocate a copy of the dice outer list, write
the shuffled permutation into the copy (the in-place `shuffle`), read
the die objects through it and produce the letter codes. -/
def rollPhase (r : Boggle.Rand) (h : Heap) (c : ConfigAddrs) : Heap × List Int :=
  let das := readRefs h c.diceList
  let p1 := alloc h (.refs das)
  let h2 := write p1.1 p1.2 (.refs (r.shuffle das))
  let shuffledAddrs := readRefs h2 p1.2
  let letters := Boggle.rollLettersFrom r 0 (shuffledAddrs.map (readStrs h2))
  (h2, letters.map Boggle.letterCode)

/-- Assemble the start grid: deep-copied begin row if truthy, the
populated row objects, then a deep-copied end row. -/
def assemblePhase (h4 : Heap) (c : ConfigAddrs) (popAddrs : List Nat) : Heap × List Nat :=
  let p5 : Heap × List Nat :=
    match c.begin_row with
    | none => (h4, [])
    | some b =>
      if (readInts h4 b).isEmpty then (h4, [])
      else
        let p := alloc h4 (.ints (readInts h4 b))
        (p.1, [p.2])
  let p6 := alloc p5.1 (.ints (readInts p5.1 c.end_row))
  (p6.1, p5.2 ++ popAddrs ++ [p6.2])

/-- `end_grid = copy.deepcopy(start_grid)` followed by the in-place
boundary loop on the copies. -/
def endPhase (h6 : Heap) (startAddrs : List Nat) : Heap × List Nat :=
  let p7 := deepcopyRows h6 startAddrs
  (boundaryRowsHeap p7.2 p7.1, p7.2)

/-- The store-passing `generate_boggle_grids`: identical operation
order to the source — copy-and-shuffle the dice list, roll the letters,
deep-copy and fill the mid rows, assemble the start grid (deep-copying
the begin and end template rows), deep-copy it into the end grid and
run the boundary loop on the copies.  The heap is returned in every
case, error or not. -/
def generate_boggle_grids_heap (r : Boggle.Rand) (size : Int) (h : Heap)
    (cfgs : Int → Option ConfigAddrs) :
    Heap × Except Boggle.BoggleError (List Nat × List Nat) :=
  match cfgs size with
  | none => (h, .error (.valueErrorUnsupportedSize size))
  | some c =>
    let p2 := rollPhase r h c
    let p3 := deepcopyRows p2.1 (readRefs p2.1 c.midList)
    match fillRowsHeap r p3.2 p3.1 p2.2 0 with
    | (h4, none) => (h4, .error .runtimeErrorMismatch)
    | (h4, some _) =>
      let p6 := assemblePhase h4 c p3.2
      let p8 := endPhase p6.1 p6.2
      (p8.1, .ok (p6.2, p8.2))

/-- The initial heap holding the module-level configuration objects:
the sixteen 4x4 dice (addresses 0–15) and their outer list (16), the
twenty-five 5x5 dice (17–41) and their outer list (42), the 4x4 begin
row (43), mid rows (44–47) with their outer list (48) and end row (49),
and the 5x5 mid rows (50–54) with their outer list (55) and end row
(56). -/
def initHeap : Heap :=
  Boggle.BOGGLE_DICE_4x4.map Obj.strs ++ [Obj.refs (List.range 16)] ++
  Boggle.BOGGLE_DICE_5x5.map Obj.strs ++ [Obj.refs (List.range' 17 25)] ++
  [Obj.ints Boggle.BEGIN_ROW_4x4] ++ Boggle.MID_ROWS_TEMPLATE_4x4.map Obj.ints ++
  [Obj.refs [44, 45, 46, 47], Obj.ints Boggle.END_ROW_4x4] ++
  Boggle.MID_ROWS_TEMPLATE_5x5.map Obj.ints ++
  [Obj.refs [50, 51, 52, 53, 54], Obj.ints Boggle.END_ROW_5x5]

/-- `BOGGLE_CONFIG` as addresses into `initHeap`. -/
def BOGGLE_CONFIG_addrs (size : Int) : Option ConfigAddrs :=
  if size = 4 then some ⟨16, some 43, 48, 49⟩
  else if size = 5 then some ⟨42, none, 55, 56⟩
  else none

/-- `h` preserves the first `n` objects of `h0` (and has at least `n`
objects, so later allocations land strictly above them). -/
def Agrees (h0 h : Heap) (n : Nat) : Prop :=
  n ≤ List.length h ∧ ∀ a, a < n → h[a]? = h0[a]?

theorem agrees_refl (h : Heap) : Agrees h h (List.length h) :=
  ⟨le_refl _, fun _ _ => rfl⟩

theorem agrees_alloc (h0 h : Heap) (n : Nat) (o : Obj) (hA : Agrees h0 h n) :
    Agrees h0 (alloc h o).1 n := by
  obtain ⟨hlen, hag⟩ := hA
  constructor
  · simp only [alloc, List.append_eq, List.length_append, List.length_cons, List.length_nil]
    omega
  · intro a ha
    show (h ++ [o])[a]? = h0[a]?
    rw [List.getElem?_append_left (by omega)]
    exact hag a ha

theorem agrees_write (h0 h : Heap) (n a : Nat) (o : Obj) (hA : Agrees h0 h n)
    (ha : n ≤ a) : Agrees h0 (write h a o) n := by
  obtain ⟨hlen, hag⟩ := hA
  constructor
  · simpa [write] using hlen
  · intro b hb
    rw [write, List.getElem?_set_ne (by omega)]
    exact hag b hb

theorem deepcopyRows_agrees (h0 : Heap) (n : Nat) :
    ∀ (addrs : List Nat) (h : Heap), Agrees h0 h n → Agrees h0 (deepcopyRows h addrs).1 n := by
  intro addrs
  induction addrs with
  | nil => intro h hA; exact hA
  | cons a rest ih =>
    intro h hA
    exact ih _ (agrees_alloc h0 h n _ hA)

theorem deepcopyRows_length_ge :
    ∀ (addrs : List Nat) (h : Heap), List.length h ≤ List.length (deepcopyRows h addrs).1 := by
  intro addrs
  induction addrs with
  | nil => intro h; exact le_refl _
  | cons a rest ih =>
    intro h
    have h1 : List.length h ≤ List.length (alloc h (Obj.ints (readInts h a))).1 := by
      simp [alloc]
    exact h1.trans (ih _)

theorem deepcopyRows_addrs_ge :
    ∀ (addrs : List Nat) (h : Heap),
      ∀ a ∈ (deepcopyRows h addrs).2, List.length h ≤ a := by
  intro addrs
  induction addrs with
  | nil => intro h a ha; simp [deepcopyRows] at ha
  | cons b rest ih =>
    intro h a ha
    simp only [deepcopyRows] at ha
    rcases List.mem_cons.mp ha with ha | ha
    · subst ha; exact le_refl _
    · have h1 : List.length (alloc h (Obj.ints (readInts h b))).1 ≤ a := ih _ a ha
      have h2 : List.length h ≤ List.length (alloc h (Obj.ints (readInts h b))).1 := by
        simp [alloc]
      omega

theorem fillColsHeap_agrees (h0 : Heap) (n : Nat) (r : Boggle.Rand) (a : Nat)
    (hna : n ≤ a) :
    ∀ (cs : List Nat) (h : Heap) (avail : List Int) (step : Nat),
      Agrees h0 h n → Agrees h0 (fillColsHeap r a cs h avail step).1 n := by
  intro cs
  induction cs with
  | nil => intro h avail step hA; exact hA
  | cons c rest ih =>
    intro h avail step hA
    simp only [fillColsHeap]
    by_cases hcell : (readInts h a).getD c 0 = Boggle.LETTER_PLACEHOLDER
    · rw [if_pos hcell]
      cases avail with
      | nil => exact hA
      | cons a1 as => exact ih _ _ _ (agrees_write h0 h n a _ hA hna)
    · rw [if_neg hcell]
      exact ih _ _ _ hA

theorem fillRowsHeap_agrees (h0 : Heap) (n : Nat) (r : Boggle.Rand) :
    ∀ (addrs : List Nat) (h : Heap) (avail : List Int) (step : Nat),
      (∀ a ∈ addrs, n ≤ a) → Agrees h0 h n →
      Agrees h0 (fillRowsHeap r addrs h avail step).1 n := by
  intro addrs
  induction addrs with
  | nil => intro h avail step _ hA; exact hA
  | cons a rest ih =>
    intro h avail step hall hA
    have hA2 := fillColsHeap_agrees h0 n r a (hall a (List.mem_cons_self _ _))
      (List.range (readInts h a).length) h avail step hA
    simp only [fillRowsHeap]
    cases hfc : fillColsHeap r a (List.range (readInts h a).length) h avail step with
    | mk h2 res =>
      have h12 : (fillColsHeap r a (List.range (readInts h a).length) h avail step).1 = h2 := by
        rw [hfc]
      have hA3 : Agrees h0 h2 n := h12 ▸ hA2
      cases res with
      | none => simpa using hA3
      | some p =>
        obtain ⟨avail2, step2⟩ := p
        simpa using ih h2 avail2 step2 (fun b hb => hall b (List.mem_cons_of_mem _ hb)) hA3

theorem boundaryColsHeap_agrees (h0 : Heap) (n : Nat) (a : Nat) (hna : n ≤ a) :
    ∀ (cs : List Nat) (h : Heap), Agrees h0 h n → Agrees h0 (boundaryColsHeap a cs h) n := by
  intro cs
  induction cs with
  | nil => intro h hA; exact hA
  | cons c rest ih =>
    intro h hA
    simp only [boundaryColsHeap]
    by_cases hcell : (readInts h a).getD c 0 = Boggle.BOUNDARY_START
    · rw [if_pos hcell]
      exact ih _ (agrees_write h0 h n a _ hA hna)
    · rw [if_neg hcell]
      exact ih _ hA

theorem boundaryRowsHeap_agrees (h0 : Heap) (n : Nat) :
    ∀ (addrs : List Nat) (h : Heap), (∀ a ∈ addrs, n ≤ a) → Agrees h0 h n →
      Agrees h0 (boundaryRowsHeap addrs h) n := by
  intro addrs
  induction addrs with
  | nil => intro h _ hA; exact hA
  | cons a rest ih =>
    intro h hall hA
    exact ih _ (fun b hb => hall b (List.mem_cons_of_mem _ hb))
      (boundaryColsHeap_agrees h0 n a (hall a (List.mem_cons_self _ _)) _ h hA)

theorem rollPhase_agrees (h0 : Heap) (n : Nat) (r : Boggle.Rand) (h : Heap)
    (c : ConfigAddrs) (hA : Agrees h0 h n) : Agrees h0 (rollPhase r h c).1 n := by
  have h1 := agrees_alloc h0 h n (.refs (readRefs h c.diceList)) hA
  exact agrees_write h0 _ n _ _ h1 hA.1

theorem assemblePhase_agrees (h0 : Heap) (n : Nat) (h4 : Heap) (c : ConfigAddrs)
    (popAddrs : List Nat) (hA : Agrees h0 h4 n) :
    Agrees h0 (assemblePhase h4 c popAddrs).1 n := by
  rcases hbr : c.begin_row with _ | b
  · simp only [assemblePhase, hbr]
    exact agrees_alloc h0 h4 n _ hA
  · by_cases hempty : (readInts h4 b).isEmpty
    · simp only [assemblePhase, hbr, if_pos hempty]
      exact agrees_alloc h0 h4 n _ hA
    · simp only [assemblePhase, hbr, if_neg hempty]
      exact agrees_alloc h0 _ n _ (agrees_alloc h0 h4 n _ hA)

theorem endPhase_agrees (h0 : Heap) (n : Nat) (h6 : Heap) (startAddrs : List Nat)
    (hA : Agrees h0 h6 n) : Agrees h0 (endPhase h6 startAddrs).1 n := by
  have hcopy := deepcopyRows_agrees h0 n startAddrs h6 hA
  have haddrs : ∀ a ∈ (deepcopyRows h6 startAddrs).2, n ≤ a := fun a ha =>
    le_trans hA.1 (deepcopyRows_addrs_ge startAddrs h6 a ha)
  exact boundaryRowsHeap_agrees h0 n _ _ haddrs hcopy

/-- No call, for any size and any random behaviour, changes any object
of the initial heap: every allocation lands above the configuration
objects and every assignment targets a freshly copied row or list. -/
theorem generate_heap_preserves (r : Boggle.Rand) (size : Int) (h : Heap)
    (cfgs : Int → Option ConfigAddrs) :
    Agrees h (generate_boggle_grids_heap r size h cfgs).1 (List.length h) := by
  cases hcfg : cfgs size with
  | none => simpa [generate_boggle_grids_heap, hcfg] using agrees_refl h
  | some c =>
    simp only [generate_boggle_grids_heap, hcfg]
    set n := List.length h with hn
    set p2 := rollPhase r h c with hp2
    set p3 := deepcopyRows p2.1 (readRefs p2.1 c.midList) with hp3
    have hA2 : Agrees h p2.1 n := rollPhase_agrees h n r h c (agrees_refl h)
    have hA3 : Agrees h p3.1 n := deepcopyRows_agrees h n _ _ hA2
    have haddrs : ∀ a ∈ p3.2, n ≤ a := fun a ha =>
      le_trans hA2.1 (deepcopyRows_addrs_ge _ _ a ha)
    cases hfr : fillRowsHeap r p3.2 p3.1 p2.2 0 with
    | mk h4 res =>
      have hA4 : Agrees h h4 n := by
        have h14 : (fillRowsHeap r p3.2 p3.1 p2.2 0).1 = h4 := by rw [hfr]
        exact h14 ▸ fillRowsHeap_agrees h n r p3.2 p3.1 p2.2 0 haddrs hA3
      cases res with
      | none => simpa using hA4
      | some p =>
        have hA5 : Agrees h (assemblePhase h4 c p3.2).1 n :=
          assemblePhase_agrees h n h4 c p3.2 hA4
        have hA6 : Agrees h
            (endPhase (assemblePhase h4 c p3.2).1 (assemblePhase h4 c p3.2).2).1 n :=
          endPhase_agrees h n _ _ hA5
        simpa using hA6

/-- C10: a call to `generate_boggle_grids`, for any size and any random
behaviour, leaves every module-level configuration object — dice sets,
their outer lists, begin-row, mid-row and end-row templates —
element-for-element identical: in the store-passing embedding every
object of the initial heap is unchanged, because the function shuffles
a copy of the dice list and deep-copies every template row before
writing into it. -/
theorem C10_no_config_mutation (r : Boggle.Rand) (size : Int) (a : Nat)
    (ha : a < List.length initHeap) :
    ((generate_boggle_grids_heap r size initHeap BOGGLE_CONFIG_addrs).1)[a]? =
      initHeap[a]? :=
  (generate_heap_preserves r size initHeap BOGGLE_CONFIG_addrs).2 a ha

theorem C10_no_config_mutation_witness :
    ((generate_boggle_grids_heap Boggle.trivRand 4 initHeap BOGGLE_CONFIG_addrs).1)[43]? =
      initHeap[43]? ∧
    initHeap[43]? = some (Obj.ints Boggle.BEGIN_ROW_4x4) :=
  ⟨C10_no_config_mutation Boggle.trivRand 4 43 (by decide), by decide⟩

end BoggleHeap
